import Mathlib

/-!
Verification of the command-interpretation and query-specification layer of
the obsidian-tools CLI (`src/cli.ts`), shallowly embedded in Lean.

Strings from the command line are modelled as `String`; JavaScript numbers
that the code only ever produces and consumes as integers are modelled as
`Int` (with `parseInt` failures, i.e. `NaN`, modelled as `none`, which is
observationally equal downstream because every read of such an option is a
JS truthiness test under which both `NaN` and `undefined` are falsy).
-/

namespace ObsidianTools

/-- JS `s.startsWith("--")` (used by the capture and add arg loops). -/
def jsStartsWithDashDash (s : String) : Bool :=
  match s.toList with
  | '-' :: '-' :: _ => true
  | _ => false

/-- JS `s.startsWith("-")` (used by the run handler to find the file path). -/
def jsStartsWithDash (s : String) : Bool :=
  match s.toList with
  | '-' :: _ => true
  | _ => false

/-- JS `arr.join(" ")` on a list of strings. -/
def joinSpace (l : List String) : String :=
  String.intercalate " " l

/-- JS `String.prototype.split` with a single-character separator:
`"".split(c)` is `[""]`, separators at the ends produce empty segments. -/
def splitOnChar (c : Char) : List Char → List (List Char)
  | [] => [[]]
  | x :: xs =>
    if x = c then [] :: splitOnChar c xs
    else
      match splitOnChar c xs with
      | s :: rest => (x :: s) :: rest
      | [] => [[x]]

/-- JS `parseInt(s, 10)`: skip leading whitespace, optional sign, read leading
decimal digits, ignore the rest; `none` models `NaN` (no digits found). -/
def jsParseInt (s : String) : Option Int :=
  let cs := (s.toList).dropWhile (fun ch => ch.isWhitespace)
  let core := fun (l : List Char) =>
    let ds := l.takeWhile (fun ch => ch.isDigit)
    if ds.isEmpty then none
    else some (ds.foldl (fun a ch => a * 10 + (ch.toNat - '0'.toNat)) 0)
  match cs with
  | '-' :: rest => (core rest).map (fun n => -(n : Int))
  | '+' :: rest => (core rest).map (fun n => (n : Int))
  | rest => (core rest).map (fun n => (n : Int))

/-- One `order_by` entry, `{ field, direction }` (cli.ts line 340). -/
structure OrderSpec where
  field : String
  direction : String
deriving DecidableEq

/-- cli.ts lines 376-377: `const [field, dir = "asc"] = next.split(":")`.
The destructuring default fires only when the second segment is absent. -/
def parseOrder (s : String) : OrderSpec :=
  let parts := splitOnChar ':' s.toList
  { field := String.mk (parts.headD [])
    direction :=
      match parts.get? 1 with
      | some d => String.mk d
      | none => "asc" }

/-- `QueryOptions` (cli.ts lines 337-347), the result of `parseQueryArgs`. -/
structure QueryOptions where
  types : List String
  where_ : Option String
  order_by : List OrderSpec
  limit : Option Int
  offset : Option Int
  folder : Option String
  include_body : Bool
  json : Bool
  format : String
deriving DecidableEq

/-- The initial options object of `parseQueryArgs` (cli.ts lines 350-356). -/
def initQueryOptions : QueryOptions :=
  { types := [], where_ := none, order_by := [], limit := none, offset := none
    folder := none, include_body := false, json := false, format := "list" }

/-- The switch cases of `parseQueryArgs` that read `next` and do `i++`. -/
def isQueryValueFlag (a : String) : Bool :=
  a = "--type" || a = "-t" || a = "--where" || a = "-w" || a = "--order" ||
  a = "-o" || a = "--limit" || a = "-l" || a = "--offset" || a = "--folder" ||
  a = "-f" || a = "--format"

/-- Effect of one value-taking flag with its following token (cli.ts lines
362-407).  Every branch guards on `if (next)`, i.e. on `n` being nonempty;
`--format` additionally requires one of `table`/`list`/`json`. -/
def applyQueryFlag (a n : String) (o : QueryOptions) : QueryOptions :=
  if a = "--type" ∨ a = "-t" then
    if n ≠ "" then { o with types := o.types ++ [n] } else o
  else if a = "--where" ∨ a = "-w" then
    if n ≠ "" then { o with where_ := some n } else o
  else if a = "--order" ∨ a = "-o" then
    if n ≠ "" then { o with order_by := o.order_by ++ [parseOrder n] } else o
  else if a = "--limit" ∨ a = "-l" then
    if n ≠ "" then { o with limit := jsParseInt n } else o
  else if a = "--offset" then
    if n ≠ "" then { o with offset := jsParseInt n } else o
  else if a = "--folder" ∨ a = "-f" then
    if n ≠ "" then { o with folder := some n } else o
  else if a = "--format" then
    if n = "table" ∨ n = "list" ∨ n = "json" then { o with format := n } else o
  else o

/-- The loop of `parseQueryArgs` (cli.ts lines 358-409).  A value-taking flag
consumes the next token unconditionally (`i++`); a value-taking flag in final
position consumes nothing, sets nothing, and is not an error; unknown tokens
are skipped. -/
def parseQueryLoop : List String → QueryOptions → QueryOptions
  | [], o => o
  | [a], o =>
    if a = "--body" then { o with include_body := true }
    else if a = "--json" then { o with json := true, format := "json" }
    else o
  | a :: n :: r, o =>
    if a = "--body" then parseQueryLoop (n :: r) { o with include_body := true }
    else if a = "--json" then
      parseQueryLoop (n :: r) { o with json := true, format := "json" }
    else if isQueryValueFlag a then parseQueryLoop r (applyQueryFlag a n o)
    else parseQueryLoop (n :: r) o

/-- `parseQueryArgs` (cli.ts lines 349-412). -/
def parseQueryArgs (args : List String) : QueryOptions :=
  parseQueryLoop args initQueryOptions

/-- The request object assembled by the interactive `queryCommand`
(cli.ts lines 489-516): a field is `none` when the source never sets the
corresponding key on `queryInput`. -/
structure QueryInput where
  types : Option (List String)
  where_ : Option String
  order_by : Option (List OrderSpec)
  folder : Option String
  limit : Option Int
  offset : Option Int
  include_body : Option Bool
deriving DecidableEq

/-- The default where clause of the zero-filter task view (cli.ts line 502). -/
def defaultWhere : String := "status != \"done\" && status != \"cancelled\""

/-- cli.ts line 487: `options.types.length > 0 || options.where || options.folder`.
`where_` and `folder` are only ever set to nonempty strings, so `isSome`
coincides with JS truthiness here. -/
def hasFilters (o : QueryOptions) : Bool :=
  !o.types.isEmpty || o.where_.isSome || o.folder.isSome

/-- `queryCommand`'s request construction (cli.ts lines 489-515).  `limit` and
`offset` are guarded by JS truthiness (`if (options.limit)`), under which `0`
(and `NaN`, modelled as `none`) are dropped. -/
def buildQueryCommandInput (o : QueryOptions) : QueryInput :=
  let hf := hasFilters o
  { types :=
      if !o.types.isEmpty then some o.types
      else if !hf then some ["task"] else none
    where_ :=
      match o.where_ with
      | some w => some w
      | none => if !hf then some defaultWhere else none
    order_by :=
      if !o.order_by.isEmpty then some o.order_by
      else if !hf then some [⟨"priority", "asc"⟩] else none
    folder := o.folder
    limit :=
      match o.limit with
      | some n => if n ≠ 0 then some n else none
      | none => none
    offset :=
      match o.offset with
      | some n => if n ≠ 0 then some n else none
      | none => none
    include_body := if o.include_body then some true else none }

/-- `formatRelativeTime` (cli.ts lines 322-334), with `new Date()` injected as
`nowMs` and `date.toLocaleDateString()` abstracted as `locale dateMs`.
`Int.fdiv` rounds toward negative infinity exactly like `Math.floor` on the
quotient. -/
def formatRelativeTime (locale : Int → String) (dateMs nowMs : Int) : String :=
  let diffMs := nowMs - dateMs
  let diffMins := Int.fdiv diffMs 60000
  let diffHours := Int.fdiv diffMs 3600000
  let diffDays := Int.fdiv diffMs 86400000
  if diffMins < 1 then "just now"
  else if diffMins < 60 then toString diffMins ++ "m ago"
  else if diffHours < 24 then toString diffHours ++ "h ago"
  else if diffDays < 7 then toString diffDays ++ "d ago"
  else locale dateMs

/-! ### The `run` path: YAML-derived values and the request it sends -/

/-- Runtime values a parsed YAML document can hold, as seen by the JS code
(`parseYaml` result and its properties).  `undefined` is JS `undefined` (a missing
property); `null` is the parse of an empty document.  Numbers that occur in
query files are integral and are modelled as `Int`. -/
inductive Val where
  | null : Val
  | undefined : Val
  | bool : Bool → Val
  | num : Int → Val
  | str : String → Val
  | arr : List Val → Val
  | obj : List (String × Val) → Val

/-- First-match association lookup, the own-property lookup of a JS object
(YAML parses never produce duplicate keys). -/
def lookupVal : List (String × Val) → String → Option Val
  | [], _ => none
  | (k, v) :: rest, key => if k = key then some v else lookupVal rest key

/-- JS property access `v[key]` for the keys the code reads: an object's own
property or `undefined`.  (Access on `null`/`undefined` throws; `runPhase`
models that case before any access.) -/
def getProp (v : Val) (key : String) : Val :=
  match v with
  | .obj kvs => (lookupVal kvs key).getD .undefined
  | _ => .undefined

/-- JS truthiness of a value. -/
def truthy : Val → Bool
  | .null => false
  | .undefined => false
  | .bool b => b
  | .num n => n != 0
  | .str s => s != ""
  | .arr _ => true
  | .obj _ => true

/-- JS `typeof v === "object"` (true for objects, arrays and `null`). -/
def isObjectType : Val → Bool
  | .null => true
  | .arr _ => true
  | .obj _ => true
  | _ => false

/-- cli.ts lines 450-452: if `queryDef.query` is truthy and of object type it
replaces the top-level document. -/
def unwrapQuery (v : Val) : Val :=
  let q := getProp v "query"
  if truthy q && isObjectType q then q else v

/-- The request object literal that `runQuery` passes to `collection.query`
(cli.ts lines 456-465).  It has exactly these eight properties and no others;
the `as`-casts in the source are compile-time only, so each field is the raw
property value of the (unwrapped) document. -/
structure RunRequest where
  types : Val
  where_ : Val
  order_by : Val
  folder : Val
  limit : Val
  offset : Val
  include_body : Val
  formulas : Val

/-- Builds the `collection.query` argument of `runQuery`
(cli.ts lines 456-465); `include_body` applies `?? false`. -/
def mkRunRequest (d : Val) : RunRequest :=
  { types := getProp d "types"
    where_ := getProp d "where"
    order_by := getProp d "order_by"
    folder := getProp d "folder"
    limit := getProp d "limit"
    offset := getProp d "offset"
    include_body :=
      match getProp d "include_body" with
      | .null => .bool false
      | .undefined => .bool false
      | x => x
    formulas := getProp d "formulas" }

/-- The phase of `runQuery` after YAML parsing (cli.ts lines 449-465): reading
`.query` on a `null` (empty document) or `undefined` parse throws a
`TypeError` that escapes to `main().catch` (exit 1, before the collection is
opened); otherwise the optional unwrap happens and the request is built. -/
def runPhase : Val → Except String RunRequest
  | .null => .error "TypeError: Cannot read properties of null"
  | .undefined => .error "TypeError: Cannot read properties of undefined"
  | v => .ok (mkRunRequest (unwrapQuery v))

/-- Property read on the request object sent by `runQuery`: the eight literal
keys of cli.ts lines 456-465, everything else absent (`undefined`). -/
def reqLookup (r : RunRequest) (k : String) : Val :=
  if k = "types" then r.types
  else if k = "where" then r.where_
  else if k = "order_by" then r.order_by
  else if k = "folder" then r.folder
  else if k = "limit" then r.limit
  else if k = "offset" then r.offset
  else if k = "include_body" then r.include_body
  else if k = "formulas" then r.formulas
  else .undefined

/-- The canonical Query Request field names (spec section 3). -/
def queryKeys : List String :=
  ["types", "where", "order_by", "folder", "limit", "offset",
   "include_body", "formulas"]

def isStrVal : Val → Bool
  | .str _ => true
  | _ => false

def isNumVal : Val → Bool
  | .num _ => true
  | _ => false

def isBoolVal : Val → Bool
  | .bool _ => true
  | _ => false

def isObjVal : Val → Bool
  | .obj _ => true
  | _ => false

/-- Shape of one canonical field's value (spec section 3's Query Request). -/
def fieldShapeOk (k : String) (v : Val) : Bool :=
  if k = "types" then
    match v with
    | .arr xs => xs.all isStrVal
    | _ => false
  else if k = "where" then isStrVal v
  else if k = "order_by" then
    match v with
    | .arr xs => xs.all isObjVal
    | _ => false
  else if k = "folder" then isStrVal v
  else if k = "limit" then isNumVal v
  else if k = "offset" then isNumVal v
  else if k = "include_body" then isBoolVal v
  else if k = "formulas" then isObjVal v
  else false

/-- A mapping conforms to the canonical Query Request shape: every key is one
of the canonical fields and carries a value of the field's shape. -/
def conformsToQueryShape (kvs : List (String × Val)) : Bool :=
  kvs.all (fun p => fieldShapeOk p.1 p.2)

/-! ### The capture command's tokenizer and frontmatter -/

/-- Mutable state of `captureNote`'s scanning loop (cli.ts lines 205-219):
collected content tokens, the last flushed `--context`/`--source` values, the
currently accumulating flag and its tokens. -/
structure CaptureState where
  contentParts : List String
  context : Option String
  source : Option String
  cur : Option String
  parts : List String

def initCaptureState : CaptureState :=
  { contentParts := [], context := none, source := none, cur := none, parts := [] }

/-- `flushFlag` (cli.ts lines 211-219): assign the joined tokens to the flag
being accumulated, clear the accumulator. -/
def flushFlag (st : CaptureState) : CaptureState :=
  let st' :=
    if st.cur = some "--context" then { st with context := some (joinSpace st.parts) }
    else if st.cur = some "--source" then { st with source := some (joinSpace st.parts) }
    else st
  { st' with parts := [], cur := none }

/-- One iteration of the `for (const arg of args)` loop of `captureNote`
(cli.ts lines 221-233). -/
def captureStep (st : CaptureState) (a : String) : CaptureState :=
  if a = "--context" ∨ a = "--source" then
    let st' := flushFlag st
    { st' with cur := some a }
  else if jsStartsWithDashDash a then flushFlag st
  else
    match st.cur with
    | some _ => { st with parts := st.parts ++ [a] }
    | none => { st with contentParts := st.contentParts ++ [a] }

/-- The whole scan of `captureNote`'s arguments including the final
`flushFlag()` (cli.ts lines 221-234). -/
def captureParse (args : List String) : CaptureState :=
  flushFlag (args.foldl captureStep initCaptureState)

/-- The joined free text (cli.ts line 236). -/
def captureContent (args : List String) : String :=
  joinSpace (captureParse args).contentParts

/-- The frontmatter of the Document Creation Request built by `captureNote`
(cli.ts lines 247-254): `context`/`source` are added only when truthy, i.e.
present and nonempty. -/
def captureFrontmatter (p : CaptureState) (id captured : String) :
    List (String × String) :=
  [("id", id), ("status", "unprocessed"), ("captured", captured)] ++
  (match p.context with
   | some c => if c ≠ "" then [("context", c)] else []
   | none => []) ++
  (match p.source with
   | some s => if s ≠ "" then [("source", s)] else []
   | none => [])

/-! ### The add command's flag parser -/

/-- A parsed field value of the add command: `tags` become a trimmed list,
`priority` a parsed integer (`none` for `NaN`), everything else a string. -/
inductive FieldVal where
  | str : String → FieldVal
  | strList : List String → FieldVal
  | int : Option Int → FieldVal
deriving DecidableEq

/-- JS object assignment `fields[key] = value`: overwrite in place or append. -/
def setField : List (String × FieldVal) → String → FieldVal → List (String × FieldVal)
  | [], k, v => [(k, v)]
  | (k', v') :: rest, k, v =>
    if k' = k then (k, v) :: rest else (k', v') :: setField rest k v

/-- JS `value.split(",").map(t => t.trim())` for the `tags` field. -/
def splitTags (value : String) : List String :=
  (splitOnChar ',' value.toList).map (fun l => (String.mk l).trim)

/-- Field interpretation of `parseArgs` (cli.ts lines 160-166). -/
def applyAddField (key value : String) (fields : List (String × FieldVal)) :
    List (String × FieldVal) :=
  if key = "tags" then setField fields key (.strList (splitTags value))
  else if key = "priority" then setField fields key (.int (jsParseInt value))
  else setField fields key (.str value)

/-- The loop of `parseArgs` (cli.ts lines 150-168): any `--` token takes the
following token as its value unconditionally; a `--` token in final position
is a fatal usage error (`Missing value for --key`, exit 1); non-flag tokens
are skipped. -/
def parseAddLoop : List String → List (String × FieldVal) →
    Except String (List (String × FieldVal))
  | [], acc => .ok acc
  | a :: rest, acc =>
    if jsStartsWithDashDash a then
      let key := String.mk (a.toList.drop 2)
      match rest with
      | [] => .error key
      | v :: r => parseAddLoop r (applyAddField key v acc)
    else parseAddLoop rest acc

/-- `parseArgs` applied to the tokens after the type (cli.ts lines 146-171). -/
def parseAddArgs (rest : List String) : Except String (List (String × FieldVal)) :=
  parseAddLoop rest []

/-! ### The result presenter -/

/-- A document of a query response (cli.ts line 539). -/
structure Doc where
  path : String
  frontmatter : List (String × Val)
  types : List String
  body : Option String

/-- Response metadata (cli.ts line 540). -/
structure Meta where
  total_count : Option Int
  has_more : Bool

/-- JS string coercion `String(value)` / template interpolation for the
values that occur in frontmatter. -/
def jsToString : Val → String
  | .null => "null"
  | .undefined => "undefined"
  | .bool b => if b then "true" else "false"
  | .num n => toString n
  | .str s => s
  | .arr xs => String.intercalate "," (xs.map jsToStringShallow)
  | .obj _ => "[object Object]"
where
  /-- One-level coercion for array elements (frontmatter arrays in this code
  hold scalars, so one level suffices). -/
  jsToStringShallow : Val → String
  | .null => ""
  | .undefined => ""
  | .bool b => if b then "true" else "false"
  | .num n => toString n
  | .str s => s
  | .arr _ => ""
  | .obj _ => "[object Object]"

/-- `value ?? fallback` on a property read. -/
def nullishOr (v : Val) (fallback : Val) : Val :=
  match v with
  | .null => fallback
  | .undefined => fallback
  | x => x

/-- `(fm.tags as string[])?.join(", ") || ""` (cli.ts line 556): a missing
value yields `""`; an array joins its elements.  (A non-array, non-nullish
value would throw in JS; frontmatter tags are arrays.) -/
def tagsJoin (v : Val) : String :=
  match v with
  | .arr xs => String.intercalate ", " (xs.map jsToString)
  | _ => ""

/-- JS `s.slice(0, n)` on the strings used here. -/
def jsSlice (s : String) (n : Nat) : String :=
  String.mk (s.toList.take n)

/-- JS `s.split("\n")[0]`. -/
def firstLine (s : String) : String :=
  String.mk ((splitOnChar '\n' s.toList).headD [])

/-- The lines printed for one document by `printQueryResults`
(cli.ts lines 548-585), one string per `console.log` call. -/
def docLines (taskMode : Bool) (doc : Doc) : List String :=
  let fm := doc.frontmatter
  if taskMode then
    let priority := jsToString (nullishOr (getProp (.obj fm) "priority") (.str "?"))
    let status := jsToString (nullishOr (getProp (.obj fm) "status") (.str "unknown"))
    let title := jsToString (nullishOr (getProp (.obj fm) "title") (.str doc.path))
    let tags := tagsJoin (getProp (.obj fm) "tags")
    ["[P" ++ priority ++ "] [" ++ status ++ "] " ++ title] ++
    (if tags ≠ "" then ["       Tags: " ++ tags] else [])
  else
    let types :=
      if doc.types.length > 0 then "(" ++ String.intercalate ", " doc.types ++ ")"
      else "(untyped)"
    let title := jsToString (nullishOr (getProp (.obj fm) "title") (.str doc.path))
    let displayFields := (fm.filter (fun p => p.1 ≠ "title" ∧ p.1 ≠ "type")).take 5
    [title ++ " " ++ types, "  Path: " ++ doc.path] ++
    displayFields.map (fun p =>
      let displayValue :=
        match p.2 with
        | .arr xs => String.intercalate ", " (xs.map jsToString)
        | v => jsToString v
      "  " ++ p.1 ++ ": " ++ displayValue) ++
    (match doc.body with
     | some b =>
       if b ≠ "" then
         ["  Body: " ++ jsSlice (firstLine b) 60 ++
          (if b.length > 60 then "..." else "")]
       else []
     | none => []) ++
    [""]

/-- The summary line of `printQueryResults` (cli.ts lines 587-588). -/
def summaryLine (resultCount : Nat) (meta : Option Meta) : String :=
  let total : Int :=
    match meta with
    | some m => m.total_count.getD resultCount
    | none => (resultCount : Int)
  "\nTotal: " ++ toString resultCount ++
  (match meta with
   | some m => if m.has_more then " of " ++ toString total else ""
   | none => "") ++ " results"

/-- `printQueryResults` (cli.ts lines 538-589) as the list of strings passed
to `console.log`: zero results short-circuit to a single sentence. -/
def printQueryResults (results : List Doc) (meta : Option Meta)
    (taskMode : Bool) : List String :=
  if results.isEmpty then ["  No results found."]
  else (results.flatMap (docLines taskMode)) ++ [summaryLine results.length meta]

/-- Recognizes the summary line shape (`"\nTotal: ..."`). -/
def lineIsTotal (s : String) : Bool :=
  decide (s.toList.take 7 = '\n' :: 'T' :: 'o' :: 't' :: 'a' :: 'l' :: ':' :: [])

/-! ### Collection-call traces of the handlers -/

/-- Observable events of one CLI invocation: calls on the external collection
and process exit. -/
inductive Event where
  | openEv : Event
  | queryEv : Event
  | createEv : Event
  | validateEv : Event
  | closeEv : Event
  | exitEv : Nat → Event
deriving DecidableEq

/-- Checks that at every nonzero exit occurring after the collection was
opened, a close has already happened. -/
def checkCloseBeforeExit : Bool → Bool → List Event → Bool
  | _, _, [] => true
  | opened, closed, e :: rest =>
    match e with
    | .openEv => checkCloseBeforeExit true closed rest
    | .closeEv => checkCloseBeforeExit opened true rest
    | .exitEv c =>
      if c ≠ 0 && opened && !closed then false
      else checkCloseBeforeExit opened closed rest
    | _ => checkCloseBeforeExit opened closed rest

def closesBeforeErrorExit (tr : List Event) : Bool :=
  checkCloseBeforeExit false false tr

/-- `addDocument` (cli.ts lines 173-200): usage exit before open when no args;
`parseArgs` usage exit before open on a missing flag value; otherwise open,
create, and close on both the error path (exit 1) and the success path. -/
def addDocumentTrace (args : List String) (createErr : Bool) : List Event :=
  match args with
  | [] => [.exitEv 1]
  | _ :: rest =>
    match parseAddArgs rest with
    | .error _ => [.exitEv 1]
    | .ok _ =>
      [.openEv, .createEv] ++
      (if createErr then [.closeEv, .exitEv 1] else [.closeEv, .exitEv 0])

/-- `captureNote` (cli.ts lines 202-272): usage exit before open when the
content is empty; otherwise open, create, close on both paths. -/
def captureNoteTrace (args : List String) (createErr : Bool) : List Event :=
  if captureContent args = "" then [.exitEv 1]
  else
    [.openEv, .createEv] ++
    (if createErr then [.closeEv, .exitEv 1] else [.closeEv, .exitEv 0])

/-- `showInbox` (cli.ts lines 274-320). -/
def showInboxTrace (queryErr : Bool) : List Event :=
  [.openEv, .queryEv] ++
  (if queryErr then [.closeEv, .exitEv 1] else [.closeEv, .exitEv 0])

/-- `runQuery`'s scan for `--json` and the file path (cli.ts lines 419-425):
the last token not starting with `-` wins. -/
def runFilePath (args : List String) : Option String :=
  args.foldl
    (fun acc a =>
      if a = "--json" then acc
      else if jsStartsWithDash a then acc
      else some a)
    none

/-- `runQuery` (cli.ts lines 414-480): usage/file/parse/`TypeError` exits all
happen before the collection is opened; after open, close happens on both the
query-error path (exit 1) and the success path. -/
def runQueryTrace (args : List String) (fileExists : Bool)
    (parsed : Except String Val) (queryErr : Bool) : List Event :=
  match runFilePath args with
  | none => [.exitEv 1]
  | some _ =>
    if !fileExists then [.exitEv 1]
    else
      match parsed with
      | .error _ => [.exitEv 1]
      | .ok v =>
        match runPhase v with
        | .error _ => [.exitEv 1]
        | .ok _ =>
          [.openEv, .queryEv] ++
          (if queryErr then [.closeEv, .exitEv 1] else [.closeEv, .exitEv 0])

/-- `queryCommand` (cli.ts lines 482-536): `parseQueryArgs` is total and the
handler has no usage-error exit, so the collection-event trace does not
depend on the arguments. -/
def queryCommandTrace (args : List String) (queryErr : Bool) : List Event :=
  let _ := buildQueryCommandInput (parseQueryArgs args)
  [.openEv, .queryEv] ++
  (if queryErr then [.closeEv, .exitEv 1] else [.closeEv, .exitEv 0])

/-- `generateReport` (cli.ts lines 591-639): response errors are ignored and
the handler always closes and ends normally. -/
def generateReportTrace : List Event :=
  [.openEv, .queryEv, .queryEv, .validateEv, .closeEv, .exitEv 0]

/-- `validateVault` (cli.ts lines 641-667). -/
def validateVaultTrace : List Event :=
  [.openEv, .validateEv, .closeEv, .exitEv 0]

/-- `listFiles` (cli.ts lines 669-683): a query error is ignored. -/
def listFilesTrace : List Event :=
  [.openEv, .queryEv, .closeEv, .exitEv 0]

/-! ### Helper lemmas -/

theorem splitOnChar_of_not_mem (c : Char) :
    ∀ l : List Char, c ∉ l → splitOnChar c l = [l]
  | [], _ => rfl
  | x :: xs, h => by
    have hx : ¬ x = c := fun hxc => h (hxc ▸ List.mem_cons_self x xs)
    have hxs : c ∉ xs := fun hm => h (List.mem_cons_of_mem x hm)
    simp [splitOnChar, hx, splitOnChar_of_not_mem c xs hxs]

theorem splitOnChar_append (c : Char) :
    ∀ a b : List Char, c ∉ a → splitOnChar c (a ++ c :: b) = a :: splitOnChar c b
  | [], b, _ => by simp [splitOnChar]
  | x :: xs, b, h => by
    have hx : ¬ x = c := fun hxc => h (hxc ▸ List.mem_cons_self x xs)
    have hxs : c ∉ xs := fun hm => h (List.mem_cons_of_mem x hm)
    simp [splitOnChar, hx, splitOnChar_append c xs b hxs]

theorem lookupVal_filter (p : String → Bool) (key : String) (hp : p key = true) :
    ∀ kvs : List (String × Val),
      lookupVal (kvs.filter (fun q => p q.1)) key = lookupVal kvs key
  | [] => rfl
  | (k, v) :: rest => by
    by_cases hk : p k
    · simp [List.filter, hk, lookupVal, lookupVal_filter p key hp rest]
    · have hne : k ≠ key := fun he => hk (he ▸ hp)
      simp [List.filter, hk, lookupVal, hne, lookupVal_filter p key hp rest]

theorem conforms_lookup_query :
    ∀ kvs : List (String × Val), conformsToQueryShape kvs = true →
      lookupVal kvs "query" = none
  | [], _ => rfl
  | (k, v) :: rest, h => by
    simp only [conformsToQueryShape, List.all_cons, Bool.and_eq_true] at h
    obtain ⟨h1, h2⟩ := h
    have hk : k ≠ "query" := by
      rintro rfl
      simp [fieldShapeOk] at h1
    simp only [lookupVal, if_neg hk]
    exact conforms_lookup_query rest h2

/-! ### C4: `--order` parsing -/

/-- C4 counterexample: the code never validates the direction segment.
`-o priority:bogus` yields direction `"bogus"` — not a recognized direction
and not defaulted to `"asc"` as claimed — and a second colon's tail is
discarded rather than kept in the direction. -/
theorem C4_counterexample :
    parseOrder "priority:bogus" = ⟨"priority", "bogus"⟩ ∧
    (parseOrder "priority:bogus").direction ≠ "asc" ∧
    (parseOrder "priority:bogus").direction ≠ "desc" ∧
    parseOrder "a:b:c" = ⟨"a", "b"⟩ := by decide

/-- C4 (amended): `--order` splits its value on colons; the field is the
segment before the first colon; the direction is the segment between the
first and second colons, passed through without validation, and defaults to
`"asc"` exactly when the value contains no colon at all. -/
theorem C4_order_parsing (a d r : List Char) (ha : ':' ∉ a) (hd : ':' ∉ d) :
    parseOrder (String.mk a) = ⟨String.mk a, "asc"⟩ ∧
    parseOrder (String.mk (a ++ ':' :: d)) = ⟨String.mk a, String.mk d⟩ ∧
    parseOrder (String.mk (a ++ ':' :: (d ++ ':' :: r))) =
      ⟨String.mk a, String.mk d⟩ := by
  refine ⟨?_, ?_, ?_⟩
  · simp [parseOrder, splitOnChar_of_not_mem ':' a ha]
  · simp [parseOrder, splitOnChar_append ':' a d ha,
      splitOnChar_of_not_mem ':' d hd]
  · simp [parseOrder, splitOnChar_append ':' a _ ha,
      splitOnChar_append ':' d r hd]

/-- C4 witness. -/
theorem C4_order_parsing_witness :
    (':' ∉ ['d', 'u', 'e']) ∧
    parseOrder (String.mk (['d', 'u', 'e'] ++ ':' :: ['d', 'e', 's', 'c'])) =
      ⟨String.mk ['d', 'u', 'e'], String.mk ['d', 'e', 's', 'c']⟩ :=
  ⟨by decide,
   (C4_order_parsing ['d', 'u', 'e'] ['d', 'e', 's', 'c'] []
     (by decide) (by decide)).2.1⟩

/-! ### C5: the `query:` wrapper round-trip -/

/-- C5 (confirmed): for a mapping conforming to the Query Request shape, the
run path builds the identical request from the mapping itself and from a
document wrapping it under a `query:` key. -/
theorem C5_query_wrapper_roundtrip (kvs : List (String × Val))
    (h : conformsToQueryShape kvs = true) :
    runPhase (Val.obj [("query", Val.obj kvs)]) = runPhase (Val.obj kvs) := by
  have h0 : lookupVal kvs "query" = none := conforms_lookup_query kvs h
  have e1 : runPhase (Val.obj [("query", Val.obj kvs)]) =
      .ok (mkRunRequest (unwrapQuery (Val.obj [("query", Val.obj kvs)]))) := rfl
  have e2 : runPhase (Val.obj kvs) =
      .ok (mkRunRequest (unwrapQuery (Val.obj kvs))) := rfl
  rw [e1, e2]
  have u1 : unwrapQuery (Val.obj [("query", Val.obj kvs)]) = Val.obj kvs := by
    simp [unwrapQuery, getProp, lookupVal, truthy, isObjectType]
  have u2 : unwrapQuery (Val.obj kvs) = Val.obj kvs := by
    simp [unwrapQuery, getProp, h0, truthy]
  rw [u1, u2]

/-- C5 witness. -/
theorem C5_query_wrapper_roundtrip_witness :
    conformsToQueryShape
      [("types", Val.arr [Val.str "task"]), ("limit", Val.num 5)] = true ∧
    runPhase (Val.obj [("query",
        Val.obj [("types", Val.arr [Val.str "task"]), ("limit", Val.num 5)])]) =
      runPhase (Val.obj
        [("types", Val.arr [Val.str "task"]), ("limit", Val.num 5)]) :=
  ⟨by decide,
   C5_query_wrapper_roundtrip
     [("types", Val.arr [Val.str "task"]), ("limit", Val.num 5)] (by decide)⟩

/-! ### C2: unknown YAML keys -/

/-- C2 counterexample: an unknown key `foo` of the YAML mapping is not
present in the request `runQuery` sends — the built request maps `foo` to
`undefined` while the document maps it to `"bar"`, so the key is stripped,
not passed through. -/
theorem C2_counterexample :
    runPhase (Val.obj [("foo", Val.str "bar")]) =
      .ok (mkRunRequest (Val.obj [("foo", Val.str "bar")])) ∧
    getProp (Val.obj [("foo", Val.str "bar")]) "foo" = Val.str "bar" ∧
    reqLookup (mkRunRequest (Val.obj [("foo", Val.str "bar")])) "foo" =
      Val.undefined ∧
    Val.undefined ≠ Val.str "bar" :=
  ⟨rfl, rfl, rfl, fun h => Val.noConfusion h⟩

/-- C2 (amended): the builder forwards only the eight canonical Query Request
fields; every key outside the canonical set reads back as `undefined` from
the request sent, and the built request depends only on the canonical-key
entries of the mapping. -/
theorem C2_unknown_keys_stripped (kvs : List (String × Val)) (k : String)
    (hk : k ∉ queryKeys) :
    reqLookup (mkRunRequest (unwrapQuery (Val.obj kvs))) k = Val.undefined ∧
    mkRunRequest (Val.obj kvs) =
      mkRunRequest (Val.obj (kvs.filter (fun p => p.1 ∈ queryKeys))) := by
  constructor
  · simp only [queryKeys, List.mem_cons, List.not_mem_nil, or_false,
      not_or] at hk
    obtain ⟨h1, h2, h3, h4, h5, h6, h7, h8⟩ := hk
    simp [reqLookup, h1, h2, h3, h4, h5, h6, h7, h8]
  · have hg : ∀ key : String, key ∈ queryKeys →
        getProp (Val.obj (kvs.filter (fun p => p.1 ∈ queryKeys))) key =
          getProp (Val.obj kvs) key := by
      intro key hkey
      simp only [getProp]
      rw [lookupVal_filter (fun s => decide (s ∈ queryKeys)) key
        (by simpa using hkey)]
    simp only [mkRunRequest]
    rw [hg "types" (by simp [queryKeys]), hg "where" (by simp [queryKeys]),
      hg "order_by" (by simp [queryKeys]), hg "folder" (by simp [queryKeys]),
      hg "limit" (by simp [queryKeys]), hg "offset" (by simp [queryKeys]),
      hg "include_body" (by simp [queryKeys]),
      hg "formulas" (by simp [queryKeys])]

/-- C2 witness. -/
theorem C2_unknown_keys_stripped_witness :
    ("foo" ∉ queryKeys) ∧
    reqLookup (mkRunRequest (unwrapQuery
      (Val.obj [("foo", Val.str "bar")]))) "foo" = Val.undefined :=
  ⟨by decide,
   (C2_unknown_keys_stripped [("foo", Val.str "bar")] "foo" (by decide)).1⟩

/-! ### C3: empty YAML document -/

/-- C3 counterexample: a YAML file whose parse is the empty document (`null`)
does not yield the empty match-all request — reading `.query` on `null`
throws, so `runPhase` is an error and in particular not the match-all
request built from an empty mapping. -/
theorem C3_counterexample :
    runPhase Val.null = .error "TypeError: Cannot read properties of null" ∧
    runPhase Val.null ≠ .ok (mkRunRequest (Val.obj [])) :=
  ⟨rfl, fun h => Except.noConfusion h⟩

/-- C3 (amended): running the `run` command on an existing YAML file whose
parse produces an empty document terminates with a nonzero exit caused by an
uncaught `TypeError`, before the collection is ever opened; no request is
sent. -/
theorem C3_empty_document_crashes (queryErr : Bool) :
    runQueryTrace ["queries/empty.yaml"] true (.ok Val.null) queryErr =
      [Event.exitEv 1] ∧
    Event.openEv ∉ runQueryTrace ["queries/empty.yaml"] true (.ok Val.null) queryErr ∧
    Event.queryEv ∉ runQueryTrace ["queries/empty.yaml"] true (.ok Val.null) queryErr := by
  cases queryErr <;> exact ⟨rfl, by decide, by decide⟩


theorem relTime_shift (locale : Int → String) (T c : Int) :
    formatRelativeTime locale (T - c) T =
      (if Int.fdiv c 60000 < 1 then "just now"
       else if Int.fdiv c 60000 < 60 then toString (Int.fdiv c 60000) ++ "m ago"
       else if Int.fdiv c 3600000 < 24 then toString (Int.fdiv c 3600000) ++ "h ago"
       else if Int.fdiv c 86400000 < 7 then toString (Int.fdiv c 86400000) ++ "d ago"
       else locale (T - c)) := by
  simp only [formatRelativeTime]
  rw [show T - (T - c) = c by ring]

/-- C8 (confirmed): the relative-time policy at the spec's sample offsets,
with floored minute/hour/day counts, and a locale date (never of the form
`"Nd ago"`) beyond seven days. -/
theorem C8_relative_time (locale : Int → String) (T : Int)
    (hl : ∀ (t n : Int), locale t ≠ toString n ++ "d ago") :
    formatRelativeTime locale (T - 30000) T = "just now" ∧
    formatRelativeTime locale (T - 300000) T = "5m ago" ∧
    formatRelativeTime locale (T - 10800000) T = "3h ago" ∧
    formatRelativeTime locale (T - 172800000) T = "2d ago" ∧
    formatRelativeTime locale (T - 864000000) T = locale (T - 864000000) ∧
    (∀ n : Int, formatRelativeTime locale (T - 864000000) T ≠ toString n ++ "d ago") := by
  have h5 : formatRelativeTime locale (T - 864000000) T = locale (T - 864000000) := by
    rw [relTime_shift, if_neg (by decide), if_neg (by decide), if_neg (by decide),
      if_neg (by decide)]
  refine ⟨?_, ?_, ?_, ?_, h5, ?_⟩
  · rw [relTime_shift, if_pos (by decide)]
  · rw [relTime_shift, if_neg (by decide), if_pos (by decide)]; decide
  · rw [relTime_shift, if_neg (by decide), if_neg (by decide), if_pos (by decide)]; decide
  · rw [relTime_shift, if_neg (by decide), if_neg (by decide), if_neg (by decide),
      if_pos (by decide)]; decide
  · intro n
    rw [h5]
    exact hl _ n

/-- C8 witness. -/
theorem C8_relative_time_witness :
    (∀ (t n : Int), (fun _ : Int => "") t ≠ toString n ++ "d ago") ∧
    formatRelativeTime (fun _ : Int => "") (0 - 300000) 0 = "5m ago" := by
  have hl : ∀ (t n : Int), (fun _ : Int => "") t ≠ toString n ++ "d ago" := by
    intro t n h
    have hlen := congrArg String.length h
    rw [String.length_append] at hlen
    have e1 : ("" : String).length = 0 := rfl
    have e2 : ("d ago" : String).length = 5 := rfl
    rw [e1, e2] at hlen
    omega
  exact ⟨hl, (C8_relative_time (fun _ : Int => "") 0 hl).2.1⟩

/-- C1 counterexample: `query -o due:desc` has zero explicit filters, yet the
built request's `order_by` is the user's entry, not the claimed
`[{priority, asc}]` (while the types/where defaults are still injected). -/
theorem C1_counterexample :
    (parseQueryArgs ["-o", "due:desc"]).types = [] ∧
    (parseQueryArgs ["-o", "due:desc"]).where_ = none ∧
    (parseQueryArgs ["-o", "due:desc"]).folder = none ∧
    (buildQueryCommandInput (parseQueryArgs ["-o", "due:desc"])).types = some ["task"] ∧
    (buildQueryCommandInput (parseQueryArgs ["-o", "due:desc"])).where_ = some defaultWhere ∧
    (buildQueryCommandInput (parseQueryArgs ["-o", "due:desc"])).order_by = some [⟨"due", "desc"⟩] ∧
    (buildQueryCommandInput (parseQueryArgs ["-o", "due:desc"])).order_by ≠ some [⟨"priority", "asc"⟩] := by
  decide

/-- C1 (amended): when no filter (type/where/folder) was parsed the builder
injects the default types and where clause, and injects the default ordering
exactly when no `--order` entry was parsed either; when at least one filter
was parsed no default is injected. -/
theorem C1_default_injection (args : List String) (o : QueryOptions)
    (q : QueryInput) (ho : o = parseQueryArgs args)
    (hq : q = buildQueryCommandInput o) :
    ((o.types = [] ∧ o.where_ = none ∧ o.folder = none) →
      q.types = some ["task"] ∧ q.where_ = some defaultWhere ∧
      q.order_by = some (if o.order_by = [] then [⟨"priority", "asc"⟩] else o.order_by)) ∧
    ((o.types ≠ [] ∨ o.where_ ≠ none ∨ o.folder ≠ none) →
      q.types = (if o.types = [] then none else some o.types) ∧
      q.where_ = o.where_ ∧
      q.order_by = (if o.order_by = [] then none else some o.order_by)) := by
  subst ho
  subst hq
  set o := parseQueryArgs args with hdef
  clear hdef
  constructor
  · rintro ⟨h1, h2, h3⟩
    have hf : hasFilters o = false := by simp [hasFilters, h1, h2, h3]
    refine ⟨?_, ?_, ?_⟩
    · simp [buildQueryCommandInput, hf, h1]
    · simp [buildQueryCommandInput, hf, h2]
    · by_cases hob : o.order_by = []
      · simp [buildQueryCommandInput, hf, hob]
      · simp [buildQueryCommandInput, hf, hob]
  · intro h
    have hf : hasFilters o = true := by
      rcases h with h | h | h
      · cases hts : o.types with
        | nil => exact absurd hts h
        | cons x xs => simp [hasFilters, hts]
      · cases hw : o.where_ with
        | none => exact absurd hw h
        | some w => simp [hasFilters, hw]
      · cases hfo : o.folder with
        | none => exact absurd hfo h
        | some s => simp [hasFilters, hfo]
    refine ⟨?_, ?_, ?_⟩
    · by_cases ht : o.types = [] <;> simp [buildQueryCommandInput, hf, ht]
    · cases hw : o.where_ <;> simp [buildQueryCommandInput, hf, hw]
    · by_cases hob : o.order_by = [] <;> simp [buildQueryCommandInput, hf, hob]

/-- C1 witness. -/
theorem C1_default_injection_witness :
    (buildQueryCommandInput (parseQueryArgs ["-o", "x:desc"])).types = some ["task"] ∧
    (buildQueryCommandInput (parseQueryArgs ["-o", "x:desc"])).order_by = some [⟨"x", "desc"⟩] := by
  have h := C1_default_injection ["-o", "x:desc"] (parseQueryArgs ["-o", "x:desc"])
    (buildQueryCommandInput (parseQueryArgs ["-o", "x:desc"])) rfl rfl
  have h1 := h.1 (by decide)
  refine ⟨h1.1, ?_⟩
  have h2 := h1.2.2
  rw [h2]
  decide

theorem lineIsTotal_append (s : String) : lineIsTotal ("\nTotal: " ++ s) = true := by
  unfold lineIsTotal
  rw [show ("\nTotal: " ++ s).toList =
    '\n' :: 'T' :: 'o' :: 't' :: 'a' :: 'l' :: ':' :: ' ' :: s.toList from rfl]
  rfl

theorem lineIsTotal_append3 (s t u : String) :
    lineIsTotal ((("\nTotal: " ++ s) ++ t) ++ u) = true := by
  rw [String.append_assoc, String.append_assoc]
  exact lineIsTotal_append _

theorem lineIsTotal_summary (n : Nat) (meta : Option Meta) :
    lineIsTotal (summaryLine n meta) = true :=
  lineIsTotal_append3 _ _ _

theorem getLast?_append_singleton {α : Type} (l : List α) (a : α) :
    (l ++ [a]).getLast? = some a := by
  rw [List.getLast?_append_cons]
  rfl

/-- C6 counterexample: in task mode with zero results and `has_more` set, the
rendered output is the single no-results sentence; it does not end with a
total-count summary line, let alone one of the form `N of total`. -/
theorem C6_counterexample :
    printQueryResults [] (some ⟨some 10, true⟩) true = ["  No results found."] ∧
    lineIsTotal "  No results found." = false :=
  ⟨rfl, by decide⟩

/-- C6 (amended): in the non-JSON presenter with at least one result, the
output ends with the total-count summary line, which shows
`returned of total_count` exactly when the metadata has `has_more`; with zero
results only the no-results sentence is printed (no summary line), and JSON
mode prints the serialized response instead of using this presenter. -/
theorem C6_total_summary (results : List Doc) (meta : Option Meta) (tm : Bool)
    (h : results ≠ []) :
    (printQueryResults results meta tm).getLast? =
      some (summaryLine results.length meta) ∧
    lineIsTotal (summaryLine results.length meta) = true ∧
    (∀ m : Meta, meta = some m → m.has_more = true →
      summaryLine results.length meta =
        "\nTotal: " ++ toString results.length ++ " of " ++
          toString (m.total_count.getD results.length) ++ " results") ∧
    printQueryResults [] meta tm = ["  No results found."] := by
  refine ⟨?_, lineIsTotal_summary _ _, ?_, rfl⟩
  · have hne : results.isEmpty = false := by
      cases results with
      | nil => exact absurd rfl h
      | cons x xs => rfl
    simp only [printQueryResults, hne, Bool.false_eq_true, if_false]
    exact getLast?_append_singleton _ _
  · rintro m rfl hm
    simp [summaryLine, hm, String.append_assoc]

/-- C6 witness. -/
theorem C6_total_summary_witness :
    (([⟨"a.md", [], [], none⟩] : List Doc) ≠ []) ∧
    (printQueryResults [⟨"a.md", [], [], none⟩] (some ⟨some 10, true⟩) true).getLast? =
      some (summaryLine 1 (some ⟨some 10, true⟩)) :=
  ⟨by simp,
   (C6_total_summary [⟨"a.md", [], [], none⟩] (some ⟨some 10, true⟩) true
     (by simp)).1⟩

/-- C7 counterexample: in the interactive query command, `--limit` with no
following value is not a fatal usage error — parsing returns the untouched
options (limit unset) and the invocation proceeds to query the collection and
exit 0. -/
theorem C7_counterexample :
    parseQueryArgs ["--limit"] = initQueryOptions ∧
    (parseQueryArgs ["--limit"]).limit = none ∧
    (parseQueryArgs ["--offset"]).offset = none ∧
    queryCommandTrace ["--limit"] false =
      [Event.openEv, Event.queryEv, Event.closeEv, Event.exitEv 0] ∧
    Event.exitEv 1 ∉ queryCommandTrace ["--limit"] false := by
  decide

/-- C7 (amended): a value-taking flag of the query parser in final position
leaves its option unset without error (the numeric flags included); in the
add parser any `--` flag in final position is the fatal `Missing value` usage
error; in the capture tokenizer a trailing `--context`/`--source` yields the
empty-string value. -/
theorem C7_missing_flag_value (f : String) (hf : isQueryValueFlag f = true)
    (o : QueryOptions) (k : List Char) (acc : List (String × FieldVal))
    (args : List String) :
    parseQueryLoop [f] o = o ∧
    parseAddLoop [String.mk ('-' :: '-' :: k)] acc = .error (String.mk k) ∧
    (captureParse (args ++ ["--context"])).context = some "" ∧
    (captureParse (args ++ ["--source"])).source = some "" := by
  refine ⟨?_, ?_, ?_, ?_⟩
  · simp only [isQueryValueFlag, Bool.or_eq_true, decide_eq_true_eq] at hf
    rcases hf with (((((((((((h | h) | h) | h) | h) | h) | h) | h) | h) | h) | h) | h) <;>
      subst h <;> rfl
  · rfl
  · unfold captureParse
    rw [List.foldl_append]
    rfl
  · unfold captureParse
    rw [List.foldl_append]
    rfl

/-- C7 witness. -/
theorem C7_missing_flag_value_witness :
    isQueryValueFlag "--limit" = true ∧
    parseQueryLoop ["--limit"] initQueryOptions = initQueryOptions ∧
    parseAddLoop [String.mk ('-' :: '-' :: ['t', 'i', 't', 'l', 'e'])] [] =
      .error (String.mk ['t', 'i', 't', 'l', 'e']) :=
  ⟨by decide,
   (C7_missing_flag_value "--limit" (by decide) initQueryOptions
     ['t', 'i', 't', 'l', 'e'] [] []).1,
   (C7_missing_flag_value "--limit" (by decide) initQueryOptions
     ['t', 'i', 't', 'l', 'e'] [] []).2.1⟩

/-- C9 (confirmed): in every handler, on every path on which the collection
has been opened and a nonzero exit follows (in particular the create/query
error paths), the collection is closed before that exit. -/
theorem C9_close_before_error_exit (args rargs : List String)
    (createErr captureErr inboxErr runErr queryErr : Bool)
    (fileExists : Bool) (parsed : Except String Val) :
    closesBeforeErrorExit (addDocumentTrace args createErr) = true ∧
    closesBeforeErrorExit (captureNoteTrace args captureErr) = true ∧
    closesBeforeErrorExit (showInboxTrace inboxErr) = true ∧
    closesBeforeErrorExit (runQueryTrace rargs fileExists parsed runErr) = true ∧
    closesBeforeErrorExit (queryCommandTrace args queryErr) = true ∧
    closesBeforeErrorExit generateReportTrace = true ∧
    closesBeforeErrorExit validateVaultTrace = true ∧
    closesBeforeErrorExit listFilesTrace = true := by
  refine ⟨?_, ?_, ?_, ?_, ?_, by decide, by decide, by decide⟩
  · cases args with
    | nil => rfl
    | cons a rest =>
      cases hpa : parseAddArgs rest with
      | error e => simp only [addDocumentTrace, hpa]; rfl
      | ok fs => cases createErr <;> simp only [addDocumentTrace, hpa] <;> rfl
  · by_cases hc : captureContent args = ""
    · simp only [captureNoteTrace, if_pos hc]; rfl
    · cases captureErr <;> simp only [captureNoteTrace, if_neg hc] <;> rfl
  · cases inboxErr <;> rfl
  · cases hfp : runFilePath rargs with
    | none => simp only [runQueryTrace, hfp]; rfl
    | some p =>
      cases fileExists with
      | false => simp only [runQueryTrace, hfp]; rfl
      | true =>
        cases parsed with
        | error e => simp only [runQueryTrace, hfp]; rfl
        | ok v =>
          cases hrp : runPhase v with
          | error e => simp only [runQueryTrace, hfp, hrp]; rfl
          | ok r => cases runErr <;> simp only [runQueryTrace, hfp, hrp] <;> rfl
  · cases queryErr <;> rfl

theorem joinSpace_nil : joinSpace [] = "" := rfl

theorem flushFlag_cur (st : CaptureState) : (flushFlag st).cur = none := rfl

theorem flushFlag_context_of_ne (st : CaptureState)
    (h : st.cur ≠ some "--context") : (flushFlag st).context = st.context := by
  unfold flushFlag
  by_cases h2 : st.cur = some "--source" <;> simp [h, h2]

theorem flushFlag_source_of_ne (st : CaptureState)
    (h : st.cur ≠ some "--source") : (flushFlag st).source = st.source := by
  by_cases h1 : st.cur = some "--context" <;> unfold flushFlag <;> simp [h, h1]

theorem flushFlag_context_of_cur (st : CaptureState)
    (h : st.cur = some "--context") :
    (flushFlag st).context = some (joinSpace st.parts) := by
  unfold flushFlag
  simp [h]

theorem flushFlag_source_of_cur (st : CaptureState)
    (h : st.cur = some "--source") :
    (flushFlag st).source = some (joinSpace st.parts) := by
  unfold flushFlag
  simp [h]

theorem captureStep_ctx_flag (st : CaptureState) :
    captureStep st "--context" = { flushFlag st with cur := some "--context" } := rfl

theorem captureStep_src_flag (st : CaptureState) :
    captureStep st "--source" = { flushFlag st with cur := some "--source" } := rfl

theorem captureStep_unknown_flag (st : CaptureState) (x : String)
    (h1 : x ≠ "--context") (h2 : x ≠ "--source")
    (h3 : jsStartsWithDashDash x = true) : captureStep st x = flushFlag st := by
  unfold captureStep
  rw [if_neg (by tauto), if_pos h3]

theorem captureStep_context_of_ne (st : CaptureState) (x : String)
    (hx : x ≠ "--context") (hcur : st.cur ≠ some "--context") :
    (captureStep st x).context = st.context ∧
    (captureStep st x).cur ≠ some "--context" := by
  unfold captureStep
  by_cases h1 : x = "--context" ∨ x = "--source"
  · rcases h1 with h1 | h1
    · exact absurd h1 hx
    · subst h1
      simp [flushFlag_context_of_ne st hcur]
  · by_cases h2 : jsStartsWithDashDash x
    · simp [h1, h2, flushFlag_context_of_ne st hcur, flushFlag_cur]
    · cases hcv : st.cur with
      | some g => simp [h1, h2, hcv]; exact fun he => hcur (hcv.trans (by rw [he]))
      | none => simp [h1, h2, hcv]

theorem captureStep_source_of_ne (st : CaptureState) (x : String)
    (hx : x ≠ "--source") (hcur : st.cur ≠ some "--source") :
    (captureStep st x).source = st.source ∧
    (captureStep st x).cur ≠ some "--source" := by
  unfold captureStep
  by_cases h1 : x = "--context" ∨ x = "--source"
  · rcases h1 with h1 | h1
    · subst h1
      simp [flushFlag_source_of_ne st hcur]
    · exact absurd h1 hx
  · by_cases h2 : jsStartsWithDashDash x
    · simp [h1, h2, flushFlag_source_of_ne st hcur, flushFlag_cur]
    · cases hcv : st.cur with
      | some g => simp [h1, h2, hcv]; exact fun he => hcur (hcv.trans (by rw [he]))
      | none => simp [h1, h2, hcv]

theorem foldl_context_invariant :
    ∀ (b : List String) (st : CaptureState), "--context" ∉ b →
      st.cur ≠ some "--context" →
      (b.foldl captureStep st).context = st.context ∧
      (b.foldl captureStep st).cur ≠ some "--context"
  | [], st, _, hcur => ⟨rfl, hcur⟩
  | x :: xs, st, hmem, hcur => by
    have hx : x ≠ "--context" := fun he => hmem (he ▸ List.mem_cons_self x xs)
    have hxs : "--context" ∉ xs := fun hm => hmem (List.mem_cons_of_mem x hm)
    have hstep := captureStep_context_of_ne st x hx hcur
    rw [List.foldl_cons]
    have ih := foldl_context_invariant xs (captureStep st x) hxs hstep.2
    exact ⟨ih.1.trans hstep.1, ih.2⟩

theorem foldl_source_invariant :
    ∀ (b : List String) (st : CaptureState), "--source" ∉ b →
      st.cur ≠ some "--source" →
      (b.foldl captureStep st).source = st.source ∧
      (b.foldl captureStep st).cur ≠ some "--source"
  | [], st, _, hcur => ⟨rfl, hcur⟩
  | x :: xs, st, hmem, hcur => by
    have hx : x ≠ "--source" := fun he => hmem (he ▸ List.mem_cons_self x xs)
    have hxs : "--source" ∉ xs := fun hm => hmem (List.mem_cons_of_mem x hm)
    have hstep := captureStep_source_of_ne st x hx hcur
    rw [List.foldl_cons]
    have ih := foldl_source_invariant xs (captureStep st x) hxs hstep.2
    exact ⟨ih.1.trans hstep.1, ih.2⟩

theorem capture_trailing_context (a b : List String)
    (hc : "--context" ∉ b)
    (hb : b = [] ∨ ∃ f t, b = f :: t ∧ jsStartsWithDashDash f = true) :
    (captureParse (a ++ "--context" :: b)).context = some "" := by
  unfold captureParse
  rw [List.foldl_append, List.foldl_cons]
  set st0 := a.foldl captureStep initCaptureState with hst0
  have hcur1 : (captureStep st0 "--context").cur = some "--context" := rfl
  have hparts1 : (captureStep st0 "--context").parts = [] := rfl
  set st1 := captureStep st0 "--context" with hst1
  rcases hb with rfl | ⟨f, t, rfl, hdash⟩
  · rw [List.foldl_nil, flushFlag_context_of_cur st1 hcur1, hparts1, joinSpace_nil]
  · have hf : f ≠ "--context" := fun he => hc (he ▸ List.mem_cons_self f t)
    have ht : "--context" ∉ t := fun hm => hc (List.mem_cons_of_mem f hm)
    rw [List.foldl_cons]
    have hst2 : (captureStep st1 f).context = some "" ∧
        (captureStep st1 f).cur ≠ some "--context" := by
      by_cases hsf : f = "--source"
      · subst hsf
        rw [captureStep_src_flag]
        refine ⟨?_, by simp⟩
        have e : ({ flushFlag st1 with cur := some "--source" } : CaptureState).context =
            (flushFlag st1).context := rfl
        rw [e, flushFlag_context_of_cur st1 hcur1, hparts1, joinSpace_nil]
      · rw [captureStep_unknown_flag st1 f hf hsf hdash]
        refine ⟨?_, by rw [flushFlag_cur]; exact fun h => Option.noConfusion h⟩
        rw [flushFlag_context_of_cur st1 hcur1, hparts1, joinSpace_nil]
    have hinv := foldl_context_invariant t (captureStep st1 f) ht hst2.2
    rw [flushFlag_context_of_ne _ hinv.2, hinv.1, hst2.1]

theorem capture_trailing_source (a b : List String)
    (hs : "--source" ∉ b)
    (hb : b = [] ∨ ∃ f t, b = f :: t ∧ jsStartsWithDashDash f = true) :
    (captureParse (a ++ "--source" :: b)).source = some "" := by
  unfold captureParse
  rw [List.foldl_append, List.foldl_cons]
  set st0 := a.foldl captureStep initCaptureState with hst0
  have hcur1 : (captureStep st0 "--source").cur = some "--source" := rfl
  have hparts1 : (captureStep st0 "--source").parts = [] := rfl
  set st1 := captureStep st0 "--source" with hst1
  rcases hb with rfl | ⟨f, t, rfl, hdash⟩
  · rw [List.foldl_nil, flushFlag_source_of_cur st1 hcur1, hparts1, joinSpace_nil]
  · have hf : f ≠ "--source" := fun he => hs (he ▸ List.mem_cons_self f t)
    have ht : "--source" ∉ t := fun hm => hs (List.mem_cons_of_mem f hm)
    rw [List.foldl_cons]
    have hst2 : (captureStep st1 f).source = some "" ∧
        (captureStep st1 f).cur ≠ some "--source" := by
      by_cases hcf : f = "--context"
      · subst hcf
        rw [captureStep_ctx_flag]
        refine ⟨?_, by simp⟩
        have e : ({ flushFlag st1 with cur := some "--context" } : CaptureState).source =
            (flushFlag st1).source := rfl
        rw [e, flushFlag_source_of_cur st1 hcur1, hparts1, joinSpace_nil]
      · rw [captureStep_unknown_flag st1 f hcf hf hdash]
        refine ⟨?_, by rw [flushFlag_cur]; exact fun h => Option.noConfusion h⟩
        rw [flushFlag_source_of_cur st1 hcur1, hparts1, joinSpace_nil]
    have hinv := foldl_source_invariant t (captureStep st1 f) ht hst2.2
    rw [flushFlag_source_of_ne _ hinv.2, hinv.1, hst2.1]

theorem frontmatter_no_context (p : CaptureState) (id cap : String)
    (h : p.context = some "") :
    (captureFrontmatter p id cap).lookup "context" = none := by
  cases hsrc : p.source with
  | none => simp [captureFrontmatter, h, hsrc, List.lookup]
  | some s =>
    by_cases hne : s = "" <;> simp [captureFrontmatter, h, hsrc, hne, List.lookup]

theorem frontmatter_no_source (p : CaptureState) (id cap : String)
    (h : p.source = some "") :
    (captureFrontmatter p id cap).lookup "source" = none := by
  cases hctx : p.context with
  | none => simp [captureFrontmatter, h, hctx, List.lookup]
  | some c =>
    by_cases hne : c = "" <;> simp [captureFrontmatter, h, hctx, hne, List.lookup]

/-- C10 (confirmed): a `--context` (resp. `--source`) followed by zero
free-text tokens before the next flag or the end of the argument list leaves
no `context` (resp. `source`) key in the capture frontmatter: the
empty-string flag value is dropped. -/
theorem C10_empty_flag_value_dropped (a b : List String) (id cap : String)
    (hc : "--context" ∉ b) (hs : "--source" ∉ b)
    (hb : b = [] ∨ ∃ f t, b = f :: t ∧ jsStartsWithDashDash f = true) :
    (captureFrontmatter (captureParse (a ++ "--context" :: b)) id cap).lookup
      "context" = none ∧
    (captureFrontmatter (captureParse (a ++ "--source" :: b)) id cap).lookup
      "source" = none :=
  ⟨frontmatter_no_context _ id cap (capture_trailing_context a b hc hb),
   frontmatter_no_source _ id cap (capture_trailing_source a b hs hb)⟩

/-- C10 witness. -/
theorem C10_empty_flag_value_dropped_witness :
    ("--context" ∉ ([] : List String)) ∧
    (captureFrontmatter (captureParse (["some", "note"] ++ "--context" :: []))
      "01ABC" "2026-01-01").lookup "context" = none :=
  ⟨by decide,
   (C10_empty_flag_value_dropped ["some", "note"] [] "01ABC" "2026-01-01"
     (by decide) (by decide) (Or.inl rfl)).1⟩

end ObsidianTools
